import Mathlib

/-!
Shallow embedding of the data-acquisition notebook
(`src/.ipynb_checkpoints/data_aquisition-checkpoint.ipynb`): the constants,
the `request_pageviews_per_article` function, and the per-article
aggregation loop, together with proofs of the specification claims.

Conventions of the embedding:
* Python strings are Lean `String`s; Python `None`-able string parameters
  are `Option String`.
* The shared mutable `ARTICLE_PAGEVIEWS_PARAMS_TEMPLATE` dictionary is
  threaded explicitly: each function returns the (possibly mutated)
  template.
* The observable side effects inside the `try` block (`time.sleep`,
  `requests.get`, `response.json()`, `print`) are recorded as an event
  trace, and their outcomes (exceptions, parsed bodies) come from an
  explicit oracle `TryOracle`.
* Float constants are idealised as rationals.
* A parsed JSON body is abstracted to the list of top-level keys of the
  returned object plus the list stored under the key "items" when that
  key is present.
-/

/-- A monthly record inside the `items` list of an API response body. -/
structure Item where
  timestamp : String
  views : Int
deriving DecidableEq, Repr

/-- A parsed JSON response body, abstracted to its top-level keys and the
value found under the "items" key (meaningful only when "items" is among
the keys). -/
structure PVBody where
  keys : List String
  itemsVal : List Item
deriving DecidableEq, Repr

/-- Python truthiness of the parsed body (a dict is truthy iff non-empty). -/
def PVBody.truthy (b : PVBody) : Bool := !b.keys.isEmpty

/-- The Python membership test `'items' in body`. -/
def PVBody.hasItemsKey (b : PVBody) : Bool := b.keys.contains "items"

/-- The request-template dictionary `ARTICLE_PAGEVIEWS_PARAMS_TEMPLATE`:
one field per key. -/
structure RequestTemplate where
  project : String
  access : String
  agent : String
  article : String
  granularity : String
  start : String
  end_ : String
deriving DecidableEq, Repr

/-- `API_REQUEST_PAGEVIEWS_ENDPOINT` from the notebook constants cell. -/
def API_REQUEST_PAGEVIEWS_ENDPOINT : String :=
  "https://wikimedia.org/api/rest_v1/metrics/pageviews/"

/-- `API_LATENCY_ASSUMED = 0.002`, idealised as a rational. -/
def API_LATENCY_ASSUMED : ℚ := 2/1000

/-- `API_THROTTLE_WAIT = (1.0/100.0)-API_LATENCY_ASSUMED`. -/
def API_THROTTLE_WAIT : ℚ := 1/100 - API_LATENCY_ASSUMED

/-- `REQUEST_HEADERS`: the single fixed User-Agent header. -/
def REQUEST_HEADERS : List (String × String) :=
  [("User-Agent",
    "<trips@uw.edu>, University of Washington, MSDS DATA 512 - AUTUMN 2024")]

/-- `ARTICLE_PAGEVIEWS_PARAMS_TEMPLATE` initial value. -/
def ARTICLE_PAGEVIEWS_PARAMS_TEMPLATE : RequestTemplate :=
  { project := "en.wikipedia.org"
    access := "desktop"
    agent := "user"
    article := ""
    granularity := "monthly"
    start := "2015070100"
    end_ := "2024093000" }

/-- `API_REQUEST_PER_ARTICLE_PARAMS.format(**request_template)`: the
per-article parameter format string with each placeholder replaced by the
corresponding template field. -/
def formatParams (t : RequestTemplate) : String :=
  "per-article/" ++ t.project ++ "/" ++ t.access ++ "/" ++ t.agent ++ "/" ++
    t.article ++ "/" ++ t.granularity ++ "/" ++ t.start ++ "/" ++ t.end_

/-! ### urllib.parse.quote

`urllib.parse.quote` percent-encodes the UTF-8 bytes of its argument,
leaving untouched the always-safe bytes (ASCII letters, digits, `_.-~`)
and the bytes in the `safe` parameter, which defaults to the single
character `/`. -/

/-- UTF-8 encoding of one character as a list of byte values. -/
def utf8Bytes (c : Char) : List Nat :=
  let n := c.toNat
  if n < 128 then [n]
  else if n < 2048 then [192 + n / 64, 128 + n % 64]
  else if n < 65536 then [224 + n / 4096, 128 + (n / 64) % 64, 128 + n % 64]
  else [240 + n / 262144, 128 + (n / 4096) % 64, 128 + (n / 64) % 64, 128 + n % 64]

/-- UTF-8 bytes of a whole string. -/
def strBytes (s : String) : List Nat := s.data.flatMap utf8Bytes

/-- The bytes `urllib.parse.quote` never encodes: ASCII letters, digits
and `_` (95), `.` (46), `-` (45), `~` (126); plus the default `safe`
byte `/` (47). -/
def isSafeByte (b : Nat) : Bool :=
  (65 ≤ b && b ≤ 90) || (97 ≤ b && b ≤ 122) || (48 ≤ b && b ≤ 57) ||
    b == 95 || b == 46 || b == 45 || b == 126 || b == 47

/-- Upper-case hexadecimal digit for a value below 16. -/
def hexDigit (n : Nat) : Char :=
  if n < 10 then Char.ofNat (48 + n) else Char.ofNat (55 + n)

/-- Output of `urllib.parse.quote` for one byte: the byte's character if
safe, else a percent escape. -/
def quoteByte (b : Nat) : List Char :=
  if isSafeByte b then [Char.ofNat b]
  else ['%', hexDigit (b / 16), hexDigit (b % 16)]

/-- Output of `urllib.parse.quote` over a byte sequence. -/
def quoteChars (bs : List Nat) : List Char := bs.flatMap quoteByte

/-- `urllib.parse.quote` with the default `safe` parameter. -/
def quote (s : String) : String := String.mk (quoteChars (strBytes s))

/-- Python `s.replace(' ', '_')` (single-character replacement). -/
def pyReplaceSpace (s : String) : String :=
  String.mk (s.data.map fun c => if c = ' ' then '_' else c)

/-- The complete title encoding done by `request_pageviews_per_article`:
`urllib.parse.quote(title.replace(' ', '_'))`. -/
def encodeTitle (s : String) : String := quote (pyReplaceSpace s)

/-! ### The fetch function -/

/-- Python truthiness of an optional string (`None` and `""` are falsy). -/
def pyTruthyStr : Option String → Bool
  | none => false
  | some s => !s.isEmpty

/-- Observable side effects of one call to
`request_pageviews_per_article`. -/
inductive Event where
  | sleep (seconds : ℚ)
  | get (url : String) (headers : List (String × String))
  | printLine (msg : String)
deriving DecidableEq, Repr

/-- Oracle for the behaviour of the environment inside the `try` block:
whether `time.sleep` raises, whether `requests.get` raises for a given
URL, and what `response.json()` yields for a given URL (a parse error or
a parsed body). -/
structure TryOracle where
  sleepExc : Option String
  getExc : String → Option String
  jsonResult : String → Except String PVBody

/-- The `try`/`except` block of `request_pageviews_per_article`: sleep
(when `API_THROTTLE_WAIT > 0.0`), GET, parse JSON; any exception is
printed and yields `None`. Returns the value of `json_response` and the
event trace. -/
def runTry (o : TryOracle) (request_url : String)
    (headers : List (String × String)) : Option PVBody × List Event :=
  let sleepStep : Option String × List Event :=
    if 0 < API_THROTTLE_WAIT then
      (o.sleepExc, [Event.sleep API_THROTTLE_WAIT])
    else (none, [])
  match sleepStep with
  | (some m, evs) => (none, evs ++ [Event.printLine m])
  | (none, evs) =>
    match o.getExc request_url with
    | some m => (none, evs ++ [Event.get request_url headers, Event.printLine m])
    | none =>
      match o.jsonResult request_url with
      | Except.error m =>
          (none, evs ++ [Event.get request_url headers, Event.printLine m])
      | Except.ok body =>
          (some body, evs ++ [Event.get request_url headers])

/-- The exception message of the raise in `request_pageviews_per_article`. -/
def mustSupplyMsg : String :=
  "Must supply an article title to make a pageviews request."

/-- Result of one call to `request_pageviews_per_article`: the template
after the call (the function mutates the shared dictionary), the outcome
(`Except.error` = exception propagated to the caller, `Except.ok` = the
function's return value), the request URL when one was constructed, and
the event trace. -/
structure FetchResult where
  template : RequestTemplate
  outcome : Except String (Option PVBody)
  url : Option String
  events : List Event
deriving Repr

/-- `request_pageviews_per_article(article_title, access_type,
endpoint_url, endpoint_params, request_template, headers)`; the
`endpoint_params` argument is fixed to the per-article format string,
embedded as `formatParams`. -/
def request_pageviews_per_article (o : TryOracle) (article_title : Option String)
    (access_type : String) (endpoint_url : String)
    (headers : List (String × String)) (t0 : RequestTemplate) : FetchResult :=
  let t1 := if pyTruthyStr article_title then
      { t0 with article := article_title.getD "" }
    else t0
  if t1.article.isEmpty then
    { template := t1
      outcome := Except.error mustSupplyMsg
      url := none
      events := [] }
  else
    let t2 := { t1 with access := access_type }
    let article_title_encoded := quote (pyReplaceSpace t2.article)
    let t3 := { t2 with article := article_title_encoded }
    let request_url := endpoint_url ++ formatParams t3
    let tryOut := runTry o request_url headers
    { template := t3
      outcome := Except.ok tryOut.1
      url := some request_url
      events := tryOut.2 }

/-! ### The aggregation loop (DATA AQUISITION cell) -/

/-- One element of `desktop_dict` / `mobile_dict` / `cumulative_dict`. -/
structure PageviewRecord where
  article_title : String
  timestamp : String
  views : Int
deriving DecidableEq, Repr

/-- The Python truthiness-plus-key test
`pageviews and 'items' in pageviews` applied to a fetch result. -/
def hasData : Option PVBody → Bool
  | none => false
  | some b => b.truthy && b.hasItemsKey

/-- `pageviews['items']` (meaningful when `hasData` holds). -/
def itemsOf : Option PVBody → List Item
  | none => []
  | some b => b.itemsVal

/-- The per-item dictionaries appended for desktop and all-access:
article title, timestamp and views copied from each item. -/
def passThrough (article : String) (items : List Item) : List PageviewRecord :=
  items.map fun m =>
    { article_title := article, timestamp := m.timestamp, views := m.views }

/-- The mobile merge:
`for web_record, app_record in zip(web_items, app_items)` with the
timestamp-equality guard, summing views. -/
def mergeMobile (article : String) (web app : List Item) : List PageviewRecord :=
  (web.zip app).filterMap fun p =>
    if p.1.timestamp = p.2.timestamp then
      some { article_title := article
             timestamp := p.1.timestamp
             views := p.1.views + p.2.views }
    else none

/-- Observable actions of the aggregation loop: a call of
`request_pageviews_per_article` (with the article-title argument and the
access type), or a printed notice. -/
inductive LoopEvent where
  | call (article_title : Option String) (access_type : String)
  | notice (msg : String)
deriving DecidableEq, Repr

/-- `print(f"No desktop data found for {article}")`. -/
def noticeDesktop (article : String) : String :=
  "No desktop data found for " ++ article

/-- `print(f"No mobile-web or mobile-app data found for {article}")`. -/
def noticeMobile (article : String) : String :=
  "No mobile-web or mobile-app data found for " ++ article

/-- `print(f"No all-access data found for {article}")`. -/
def noticeAllAccess (article : String) : String :=
  "No all-access data found for " ++ article

/-- State of the aggregation loop: the shared request template and the
three accumulator lists, plus the trace of calls and printed notices. -/
structure AggState where
  template : RequestTemplate
  desktop_dict : List PageviewRecord
  mobile_dict : List PageviewRecord
  cumulative_dict : List PageviewRecord
  log : List LoopEvent
deriving Repr

/-- The loop state before the first article: empty accumulators and the
module-level template. -/
def initAggState : AggState :=
  { template := ARTICLE_PAGEVIEWS_PARAMS_TEMPLATE
    desktop_dict := []
    mobile_dict := []
    cumulative_dict := []
    log := [] }

/-- One call of the fetcher from inside the loop
(`request_pageviews_per_article(article_title=article, access_type=...)`,
all other arguments left at their defaults): records the call, threads
the mutated template, and yields the outcome. -/
def stepFetch (o : TryOracle) (article access : String) (s : AggState) :
    AggState × Except String (Option PVBody) :=
  let f := request_pageviews_per_article o (some article) access
    API_REQUEST_PAGEVIEWS_ENDPOINT REQUEST_HEADERS s.template
  ({ s with template := f.template
            log := s.log ++ [LoopEvent.call (some article) access] },
   f.outcome)

/-- The body of `for article in article_titles`: fetch desktop,
mobile-web, mobile-app, all-access, appending records or printing
notices. A `some e` in the second component is an exception propagating
out of a fetch call (which aborts the whole loop). -/
def processArticle (o : TryOracle) (article : String) (s : AggState) :
    AggState × Option String :=
  let pA := stepFetch o article "desktop" s
  match pA.2 with
  | Except.error e => (pA.1, some e)
  | Except.ok desktop_pageviews =>
    let sA :=
      if hasData desktop_pageviews then
        { pA.1 with desktop_dict :=
            pA.1.desktop_dict ++ passThrough article (itemsOf desktop_pageviews) }
      else
        { pA.1 with log :=
            pA.1.log ++ [LoopEvent.notice (noticeDesktop article)] }
    let pB := stepFetch o article "mobile-web" sA
    match pB.2 with
    | Except.error e => (pB.1, some e)
    | Except.ok mobile_web_pageviews =>
      let pC := stepFetch o article "mobile-app" pB.1
      match pC.2 with
      | Except.error e => (pC.1, some e)
      | Except.ok mobile_app_pageviews =>
        let sC :=
          if hasData mobile_web_pageviews && hasData mobile_app_pageviews then
            { pC.1 with mobile_dict := pC.1.mobile_dict ++
                (mergeMobile article (itemsOf mobile_web_pageviews)
                  (itemsOf mobile_app_pageviews)) }
          else
            { pC.1 with log :=
                pC.1.log ++ [LoopEvent.notice (noticeMobile article)] }
        let pD := stepFetch o article "all-access" sC
        match pD.2 with
        | Except.error e => (pD.1, some e)
        | Except.ok all_access_pageviews =>
          let sD :=
            if hasData all_access_pageviews then
              { pD.1 with cumulative_dict := pD.1.cumulative_dict ++
                  passThrough article (itemsOf all_access_pageviews) }
            else
              { pD.1 with log :=
                  pD.1.log ++ [LoopEvent.notice (noticeAllAccess article)] }
          (sD, none)

/-- The whole `for article in article_titles` loop; an uncaught exception
in a fetch aborts the remaining iterations. -/
def runLoop (o : TryOracle) (articles : List String) (s : AggState) :
    AggState × Option String :=
  match articles with
  | [] => (s, none)
  | a :: rest =>
    match processArticle o a s with
    | (s1, some e) => (s1, some e)
    | (s1, none) => runLoop o rest s1

/-! ### Derived descriptions of the fetch and loop behaviour -/

/-- The title the function ends up using: the argument when truthy, else
whatever is left in the shared template. -/
def effectiveTitle (article_title : Option String) (t : RequestTemplate) : String :=
  if pyTruthyStr article_title then article_title.getD "" else t.article

/-- The template after a successful (non-raising) fetch: access set to
the access type, article overwritten with the encoded title. -/
def mutatedTemplate (t : RequestTemplate) (a access : String) : RequestTemplate :=
  { t with access := access, article := encodeTitle a }

/-- The request URL a fetch with the default endpoint constructs for a
given starting template, title and access type. -/
def loopURL (t : RequestTemplate) (a access : String) : String :=
  API_REQUEST_PAGEVIEWS_ENDPOINT ++ formatParams (mutatedTemplate t a access)

/-- The value of `json_response` at the end of the `try` block, as a
function of the oracle and the URL. -/
def tryResult (o : TryOracle) (url : String) : Option PVBody :=
  if o.sleepExc.isSome then none
  else
    match o.getExc url with
    | some _ => none
    | none =>
      match o.jsonResult url with
      | Except.error _ => none
      | Except.ok body => some body

/-- The outcome of the fetch the loop makes for a given article and
access type, starting from template `t`. -/
def viewsOf (o : TryOracle) (t : RequestTemplate) (a access : String) :
    Option PVBody :=
  tryResult o (loopURL t a access)

/-- Records appended to `desktop_dict` for one article. -/
def desktopAdd (o : TryOracle) (t : RequestTemplate) (a : String) :
    List PageviewRecord :=
  let r := viewsOf o t a "desktop"
  if hasData r then passThrough a (itemsOf r) else []

/-- Records appended to `mobile_dict` for one article. -/
def mobileAdd (o : TryOracle) (t : RequestTemplate) (a : String) :
    List PageviewRecord :=
  let w := viewsOf o t a "mobile-web"
  let m := viewsOf o t a "mobile-app"
  if hasData w && hasData m then mergeMobile a (itemsOf w) (itemsOf m) else []

/-- Records appended to `cumulative_dict` for one article. -/
def cumulativeAdd (o : TryOracle) (t : RequestTemplate) (a : String) :
    List PageviewRecord :=
  let r := viewsOf o t a "all-access"
  if hasData r then passThrough a (itemsOf r) else []

/-- Calls and notices produced for one article of the loop. -/
def articleLog (o : TryOracle) (t : RequestTemplate) (a : String) :
    List LoopEvent :=
  [LoopEvent.call (some a) "desktop"] ++
  (if hasData (viewsOf o t a "desktop") then []
   else [LoopEvent.notice (noticeDesktop a)]) ++
  [LoopEvent.call (some a) "mobile-web", LoopEvent.call (some a) "mobile-app"] ++
  (if hasData (viewsOf o t a "mobile-web") && hasData (viewsOf o t a "mobile-app")
   then [] else [LoopEvent.notice (noticeMobile a)]) ++
  [LoopEvent.call (some a) "all-access"] ++
  (if hasData (viewsOf o t a "all-access") then []
   else [LoopEvent.notice (noticeAllAccess a)])

/-- The call events of a loop trace. -/
def callsOf (log : List LoopEvent) : List LoopEvent :=
  log.filter fun e => match e with
    | LoopEvent.call _ _ => true
    | LoopEvent.notice _ => false

/-- The four calls the loop makes for one article, in order. -/
def fourCalls (a : String) : List LoopEvent :=
  [LoopEvent.call (some a) "desktop", LoopEvent.call (some a) "mobile-web",
   LoopEvent.call (some a) "mobile-app", LoopEvent.call (some a) "all-access"]

/-! ### Basic lemmas -/

theorem API_THROTTLE_WAIT_eq : API_THROTTLE_WAIT = 8/1000 := by
  unfold API_THROTTLE_WAIT API_LATENCY_ASSUMED
  norm_num

theorem API_THROTTLE_WAIT_pos : 0 < API_THROTTLE_WAIT := by
  rw [API_THROTTLE_WAIT_eq]
  norm_num

/-- A non-empty string is not `isEmpty`. -/
theorem isEmpty_false_of_ne {s : String} (h : s ≠ "") : s.isEmpty = false := by
  rw [Bool.eq_false_iff]
  intro hc
  exact h ((String.isEmpty_iff s).mp hc)

/-- `runTry` returns `tryResult` as its value. -/
theorem runTry_fst (o : TryOracle) (url : String) (hs : List (String × String)) :
    (runTry o url hs).1 = tryResult o url := by
  unfold runTry tryResult
  rw [if_pos API_THROTTLE_WAIT_pos]
  cases h : o.sleepExc with
  | some m => simp [h]
  | none =>
    simp only [h, Option.isSome_none, Bool.false_eq_true, if_false]
    cases o.getExc url with
    | some m => simp
    | none =>
      cases o.jsonResult url with
      | error m => simp
      | ok body => simp

/-- The fetch in the non-raising case, described in closed form. -/
theorem fetch_spec (o : TryOracle) (at_ : Option String) (access epu : String)
    (hs : List (String × String)) (t : RequestTemplate)
    (h : effectiveTitle at_ t ≠ "") :
    request_pageviews_per_article o at_ access epu hs t =
      { template := mutatedTemplate t (effectiveTitle at_ t) access
        outcome := Except.ok (tryResult o
          (epu ++ formatParams (mutatedTemplate t (effectiveTitle at_ t) access)))
        url := some (epu ++ formatParams (mutatedTemplate t (effectiveTitle at_ t) access))
        events := (runTry o
          (epu ++ formatParams (mutatedTemplate t (effectiveTitle at_ t) access)) hs).2 } := by
  have hef := h
  unfold effectiveTitle at hef
  by_cases hp : pyTruthyStr at_ = true
  · rw [if_pos hp] at hef
    have hne := isEmpty_false_of_ne hef
    simp [request_pageviews_per_article, effectiveTitle, mutatedTemplate,
          encodeTitle, hp, hne, runTry_fst]
  · have hp2 : pyTruthyStr at_ = false := by
      cases hb : pyTruthyStr at_
      · rfl
      · exact absurd hb hp
    rw [if_neg (by simp [hp2])] at hef
    have hne := isEmpty_false_of_ne hef
    simp [request_pageviews_per_article, effectiveTitle, mutatedTemplate,
          encodeTitle, hp2, hne, runTry_fst]

/-- The fetch in the raising case: the argument is falsy and the
template's article field is empty. -/
theorem fetch_raises (o : TryOracle) (at_ : Option String) (access epu : String)
    (hs : List (String × String)) (t : RequestTemplate)
    (hfalsy : pyTruthyStr at_ = false) (hempty : t.article = "") :
    request_pageviews_per_article o at_ access epu hs t =
      { template := t
        outcome := Except.error mustSupplyMsg
        url := none
        events := [] } := by
  unfold request_pageviews_per_article
  simp [hfalsy, hempty, String.isEmpty_iff]

/-- A string is empty iff its character list is. -/
theorem data_ne_nil_of_ne {a : String} (h : a ≠ "") : a.data ≠ [] := by
  intro h0
  apply h
  have hm : a = String.mk a.data := rfl
  rw [hm, h0]

/-- `String.mk` of a non-empty list is a non-empty string. -/
theorem mk_ne_empty_of_ne {l : List Char} (h : l ≠ []) : String.mk l ≠ "" := by
  intro hc
  apply h
  have hd : (String.mk l).data = "".data := by rw [hc]
  exact hd

/-- UTF-8 encoding of a character is never empty. -/
theorem utf8Bytes_ne_nil (c : Char) : utf8Bytes c ≠ [] := by
  simp only [utf8Bytes]
  split_ifs <;> simp

/-- `quoteByte` is never empty. -/
theorem quoteByte_ne_nil (b : Nat) : quoteByte b ≠ [] := by
  simp only [quoteByte]
  split_ifs <;> simp

/-- A `flatMap` with non-empty images of a non-empty list is non-empty. -/
theorem flatMap_ne_nil {α β : Type} (g : α → List β) (hg : ∀ x, g x ≠ [])
    {l : List α} (hl : l ≠ []) : l.flatMap g ≠ [] := by
  cases l with
  | nil => exact absurd rfl hl
  | cons x xs =>
    simp only [List.flatMap_cons]
    intro hc
    rcases List.append_eq_nil.mp hc with ⟨h1, -⟩
    exact hg x h1

/-- Encoding a non-empty title yields a non-empty segment. -/
theorem encodeTitle_ne {a : String} (h : a ≠ "") : encodeTitle a ≠ "" := by
  unfold encodeTitle quote quoteChars strBytes
  apply mk_ne_empty_of_ne
  apply flatMap_ne_nil quoteByte quoteByte_ne_nil
  apply flatMap_ne_nil utf8Bytes utf8Bytes_ne_nil
  show (a.data.map fun c => if c = ' ' then '_' else c) ≠ []
  intro hc
  exact data_ne_nil_of_ne h (List.map_eq_nil_iff.mp hc)

/-- `effectiveTitle` of a non-empty explicit argument is that argument. -/
theorem effectiveTitle_some (t : RequestTemplate) {a : String} (h : a ≠ "") :
    effectiveTitle (some a) t = a := by
  unfold effectiveTitle pyTruthyStr
  simp [isEmpty_false_of_ne h]

/-- Re-mutating a mutated template overwrites the same two fields. -/
theorem mutatedTemplate_collapse (t : RequestTemplate) (a acc a2 acc2 : String) :
    mutatedTemplate (mutatedTemplate t a acc) a2 acc2 = mutatedTemplate t a2 acc2 := rfl

/-- `fetch_spec` specialised to a non-empty explicit title, as the loop
calls it. -/
theorem fetch_spec_some (o : TryOracle) (a : String) (h : a ≠ "")
    (access epu : String) (hs : List (String × String)) (t : RequestTemplate) :
    request_pageviews_per_article o (some a) access epu hs t =
      { template := mutatedTemplate t a access
        outcome := Except.ok (tryResult o (epu ++ formatParams (mutatedTemplate t a access)))
        url := some (epu ++ formatParams (mutatedTemplate t a access))
        events := (runTry o (epu ++ formatParams (mutatedTemplate t a access)) hs).2 } := by
  have hf := fetch_spec o (some a) access epu hs t
    (by rw [effectiveTitle_some t h]; exact h)
  rwa [effectiveTitle_some t h] at hf

/-- Closed form of one loop iteration for a non-empty article title: no
exception escapes, the three accumulators gain exactly the records
described by `desktopAdd`, `mobileAdd` and `cumulativeAdd`, and the
trace gains `articleLog`. -/
theorem processArticle_eq (o : TryOracle) (a : String) (s : AggState) (h : a ≠ "") :
    processArticle o a s =
      ({ template := mutatedTemplate s.template a "all-access"
         desktop_dict := s.desktop_dict ++ desktopAdd o s.template a
         mobile_dict := s.mobile_dict ++ mobileAdd o s.template a
         cumulative_dict := s.cumulative_dict ++ cumulativeAdd o s.template a
         log := s.log ++ articleLog o s.template a }, none) := by
  simp only [processArticle, stepFetch, fetch_spec_some o a h,
    mutatedTemplate_collapse, desktopAdd, mobileAdd, cumulativeAdd,
    articleLog, viewsOf, loopURL,
    apply_ite AggState.template, apply_ite AggState.desktop_dict,
    apply_ite AggState.mobile_dict, apply_ite AggState.cumulative_dict,
    apply_ite AggState.log, ite_self]
  split_ifs <;> simp [List.append_assoc]

/-- A loop iteration on a non-empty article continues with the next
articles. -/
theorem runLoop_cons (o : TryOracle) (a : String) (rest : List String)
    (s : AggState) (h : a ≠ "") :
    runLoop o (a :: rest) s = runLoop o rest (processArticle o a s).1 := by
  simp only [runLoop]
  rw [processArticle_eq o a s h]

/-! ### Counting characters through the encoder -/

/-- Valid scalar values are below 1114112. -/
theorem char_toNat_lt (c : Char) : c.toNat < 1114112 := by
  have hv : c.toNat = c.val.toNat := rfl
  rcases c.valid with h | ⟨h1, h2⟩
  · omega
  · omega

/-- Characters with equal scalar values are equal. -/
theorem char_eq_of_toNat_eq {a b : Char} (h : a.toNat = b.toNat) : a = b := by
  apply Char.eq_of_val_eq
  apply UInt32.eq_of_toBitVec_eq
  apply BitVec.eq_of_toNat_eq
  exact h

/-- All UTF-8 bytes are below 256. -/
theorem utf8Bytes_mem_lt (c : Char) : ∀ b ∈ utf8Bytes c, b < 256 := by
  intro b hb
  have hlt := char_toNat_lt c
  simp only [utf8Bytes] at hb
  split_ifs at hb <;>
    simp only [List.mem_cons, List.not_mem_nil, or_false] at hb <;>
    omega

set_option maxRecDepth 4000 in
/-- Per-byte facts about `quoteByte`: how many `/` and `_` it emits, and
that it never emits a space. -/
theorem quoteByte_facts : ∀ b < 256,
    ((quoteByte b).count '/' = if b = 47 then 1 else 0) ∧
    ((quoteByte b).count '_' = if b = 95 then 1 else 0) ∧
    ' ' ∉ quoteByte b := by decide

/-- Count of an ASCII byte value inside one character's UTF-8 bytes. -/
theorem utf8Bytes_count_ascii {k : Nat} (hk : k < 128) (c : Char) :
    (utf8Bytes c).count k = if c.toNat = k then 1 else 0 := by
  by_cases hck : c.toNat = k
  · rw [if_pos hck]
    simp only [utf8Bytes]
    rw [if_pos (by omega)]
    simp [List.count_cons, List.count_nil, hck]
  · rw [if_neg hck]
    simp only [utf8Bytes]
    split_ifs with h1 h2 h3 <;>
      exact List.count_eq_zero.mpr
        (by simp only [List.mem_cons, List.not_mem_nil, or_false]; omega)

/-- `/` survives `quote` exactly as often as byte 47 occurs. -/
theorem quoteChars_count47 {bs : List Nat} (h : ∀ b ∈ bs, b < 256) :
    (quoteChars bs).count '/' = bs.count 47 := by
  induction bs with
  | nil => rfl
  | cons b rest ih =>
    simp only [quoteChars, List.flatMap_cons, List.count_append, List.count_cons]
    have hb := (quoteByte_facts b (h b (List.mem_cons_self b rest))).1
    have hr := ih fun x hx => h x (List.mem_cons_of_mem b hx)
    simp only [quoteChars] at hr
    rw [hb, hr]
    by_cases h47 : b = 47 <;> simp [h47, Nat.add_comm]

/-- `_` count in the `quote` output equals the byte-95 count. -/
theorem quoteChars_count95 {bs : List Nat} (h : ∀ b ∈ bs, b < 256) :
    (quoteChars bs).count '_' = bs.count 95 := by
  induction bs with
  | nil => rfl
  | cons b rest ih =>
    simp only [quoteChars, List.flatMap_cons, List.count_append, List.count_cons]
    have hb := (quoteByte_facts b (h b (List.mem_cons_self b rest))).2.1
    have hr := ih fun x hx => h x (List.mem_cons_of_mem b hx)
    simp only [quoteChars] at hr
    rw [hb, hr]
    by_cases h95 : b = 95 <;> simp [h95, Nat.add_comm]

/-- `quote` never emits a space character. -/
theorem quoteChars_no_space {bs : List Nat} (h : ∀ b ∈ bs, b < 256) :
    ' ' ∉ quoteChars bs := by
  induction bs with
  | nil => simp [quoteChars]
  | cons b rest ih =>
    simp only [quoteChars, List.flatMap_cons, List.mem_append]
    intro hc
    rcases hc with hc | hc
    · exact (quoteByte_facts b (h b (List.mem_cons_self b rest))).2.2 hc
    · exact ih (fun x hx => h x (List.mem_cons_of_mem b hx)) hc

/-- All bytes of a string are below 256. -/
theorem strBytes_mem_lt (l : List Char) : ∀ b ∈ l.flatMap utf8Bytes, b < 256 := by
  intro b hb
  rcases List.mem_flatMap.mp hb with ⟨c, -, hc⟩
  exact utf8Bytes_mem_lt c b hc

/-- Byte 47 occurs in the UTF-8 stream exactly where `/` occurs. -/
theorem strBytes_count47 (l : List Char) :
    (l.flatMap utf8Bytes).count 47 = l.count '/' := by
  induction l with
  | nil => rfl
  | cons c rest ih =>
    simp only [List.flatMap_cons, List.count_append, List.count_cons, ih]
    rw [utf8Bytes_count_ascii (by norm_num) c]
    by_cases hc : c = '/'
    · subst hc
      simp [Nat.add_comm]
    · have hn : c.toNat ≠ 47 := fun hc2 => hc (char_eq_of_toNat_eq hc2)
      simp [hn, hc]

/-- Byte 95 occurs in the UTF-8 stream exactly where `_` occurs. -/
theorem strBytes_count95 (l : List Char) :
    (l.flatMap utf8Bytes).count 95 = l.count '_' := by
  induction l with
  | nil => rfl
  | cons c rest ih =>
    simp only [List.flatMap_cons, List.count_append, List.count_cons, ih]
    rw [utf8Bytes_count_ascii (by norm_num) c]
    by_cases hc : c = '_'
    · subst hc
      simp [Nat.add_comm]
    · have hn : c.toNat ≠ 95 := fun hc2 => hc (char_eq_of_toNat_eq hc2)
      simp [hn, hc]

/-- Replacing spaces by underscores preserves the `/` count. -/
theorem pyReplaceSpace_count47 (l : List Char) :
    (l.map fun c => if c = ' ' then '_' else c).count '/' = l.count '/' := by
  induction l with
  | nil => rfl
  | cons c rest ih =>
    simp only [List.map_cons, List.count_cons, ih]
    by_cases hc : c = ' '
    · simp [hc]
    · simp [hc]

/-- Replacing spaces by underscores adds the space count to the
underscore count. -/
theorem pyReplaceSpace_count95 (l : List Char) :
    (l.map fun c => if c = ' ' then '_' else c).count '_' =
      l.count '_' + l.count ' ' := by
  induction l with
  | nil => rfl
  | cons c rest ih =>
    simp only [List.map_cons, List.count_cons, ih]
    by_cases hsp : c = ' '
    · simp [hsp]
      omega
    · by_cases hus : c = '_'
      · simp [hsp, hus]
        omega
      · simp [hsp, hus]

/-! ### Concrete fixtures -/

/-- A well-formed response body with two monthly items. -/
def bodyFix : PVBody :=
  { keys := ["items"]
    itemsVal := [ { timestamp := "2015070100", views := 3 },
                  { timestamp := "2015080100", views := 4 } ] }

/-- An environment in which every request succeeds with `bodyFix`. -/
def oracleOk : TryOracle :=
  { sleepExc := none
    getExc := fun _ => none
    jsonResult := fun _ => Except.ok bodyFix }

/-- An environment in which every response fails to parse as JSON. -/
def oracleFail : TryOracle :=
  { sleepExc := none
    getExc := fun _ => none
    jsonResult := fun _ => Except.error "Expecting value" }

/-! ### Case analysis of the try block -/

/-- The exception message produced inside the `try` block, if any. -/
def tryExcMsg (o : TryOracle) (url : String) : Option String :=
  match o.sleepExc with
  | some m => some m
  | none =>
    match o.getExc url with
    | some m => some m
    | none =>
      match o.jsonResult url with
      | Except.error m => some m
      | Except.ok _ => none

theorem runTry_sleepExc (o : TryOracle) (url : String)
    (hdrs : List (String × String)) (m : String) (h : o.sleepExc = some m) :
    runTry o url hdrs
      = (none, [Event.sleep API_THROTTLE_WAIT, Event.printLine m]) := by
  unfold runTry
  simp [API_THROTTLE_WAIT_pos, h]

theorem runTry_getExc (o : TryOracle) (url : String)
    (hdrs : List (String × String)) (m : String)
    (hsleep : o.sleepExc = none) (h : o.getExc url = some m) :
    runTry o url hdrs
      = (none, [Event.sleep API_THROTTLE_WAIT, Event.get url hdrs,
                Event.printLine m]) := by
  unfold runTry
  simp [API_THROTTLE_WAIT_pos, hsleep, h]

theorem runTry_jsonErr (o : TryOracle) (url : String)
    (hdrs : List (String × String)) (m : String)
    (hsleep : o.sleepExc = none) (hget : o.getExc url = none)
    (h : o.jsonResult url = Except.error m) :
    runTry o url hdrs
      = (none, [Event.sleep API_THROTTLE_WAIT, Event.get url hdrs,
                Event.printLine m]) := by
  unfold runTry
  simp [API_THROTTLE_WAIT_pos, hsleep, hget, h]

theorem runTry_ok (o : TryOracle) (url : String)
    (hdrs : List (String × String)) (body : PVBody)
    (hsleep : o.sleepExc = none) (hget : o.getExc url = none)
    (h : o.jsonResult url = Except.ok body) :
    runTry o url hdrs
      = (some body, [Event.sleep API_THROTTLE_WAIT, Event.get url hdrs]) := by
  unfold runTry
  simp [API_THROTTLE_WAIT_pos, hsleep, hget, h]

/-- The events of a completed try block always start with the sleep, and
the only GET they may contain targets the request URL with the passed
headers. -/
theorem runTry_events_shape (o : TryOracle) (url : String)
    (hdrs : List (String × String)) :
    (∃ rest, (runTry o url hdrs).2 = Event.sleep API_THROTTLE_WAIT :: rest) ∧
    (∀ u hdrs2, Event.get u hdrs2 ∈ (runTry o url hdrs).2 →
      u = url ∧ hdrs2 = hdrs) := by
  cases hsleep : o.sleepExc with
  | some m =>
    rw [runTry_sleepExc o url hdrs m hsleep]
    refine ⟨⟨_, rfl⟩, ?_⟩
    intro u hdrs2 hmem
    simp at hmem
  | none =>
    cases hget : o.getExc url with
    | some m =>
      rw [runTry_getExc o url hdrs m hsleep hget]
      refine ⟨⟨_, rfl⟩, ?_⟩
      intro u hdrs2 hmem
      simp at hmem
      exact hmem
    | none =>
      cases hjson : o.jsonResult url with
      | error m =>
        rw [runTry_jsonErr o url hdrs m hsleep hget hjson]
        refine ⟨⟨_, rfl⟩, ?_⟩
        intro u hdrs2 hmem
        simp at hmem
        exact hmem
      | ok body =>
        rw [runTry_ok o url hdrs body hsleep hget hjson]
        refine ⟨⟨_, rfl⟩, ?_⟩
        intro u hdrs2 hmem
        simp at hmem
        exact hmem

/-! ### Facts about the loop's condition test and notices -/

/-- A body whose keys contain "items" is a non-empty dict, hence truthy. -/
theorem truthy_of_hasItemsKey {b : PVBody} (h : b.hasItemsKey = true) :
    b.truthy = true := by
  unfold PVBody.hasItemsKey at h
  unfold PVBody.truthy
  cases hk : b.keys with
  | nil => rw [hk] at h; simp at h
  | cons x xs => simp [hk]

/-- `hasData` holds for any returned body with an "items" key. -/
theorem hasData_some {b : PVBody} (h : b.hasItemsKey = true) :
    hasData (some b) = true := by
  show (b.truthy && b.hasItemsKey) = true
  rw [truthy_of_hasItemsKey h, h]
  rfl

theorem noticeDesktop_ne_noticeMobile (a : String) :
    noticeDesktop a ≠ noticeMobile a := by
  intro hc
  have hl := congrArg String.length hc
  rw [noticeDesktop, noticeMobile, String.length_append, String.length_append] at hl
  have h1 : ("No desktop data found for ").length = 26 := rfl
  have h2 : ("No mobile-web or mobile-app data found for ").length = 43 := rfl
  omega

theorem noticeDesktop_ne_noticeAllAccess (a : String) :
    noticeDesktop a ≠ noticeAllAccess a := by
  intro hc
  have hl := congrArg String.length hc
  rw [noticeDesktop, noticeAllAccess, String.length_append, String.length_append] at hl
  have h1 : ("No desktop data found for ").length = 26 := rfl
  have h2 : ("No all-access data found for ").length = 29 := rfl
  omega

theorem noticeMobile_ne_noticeAllAccess (a : String) :
    noticeMobile a ≠ noticeAllAccess a := by
  intro hc
  have hl := congrArg String.length hc
  rw [noticeMobile, noticeAllAccess, String.length_append, String.length_append] at hl
  have h1 : ("No mobile-web or mobile-app data found for ").length = 43 := rfl
  have h2 : ("No all-access data found for ").length = 29 := rfl
  omega

/-- When the desktop fetch has no data, the article's log contains the
desktop notice exactly once. -/
theorem articleLog_count_desktop (o : TryOracle) (t : RequestTemplate) (a : String)
    (hD : hasData (viewsOf o t a "desktop") = false) :
    (articleLog o t a).count (LoopEvent.notice (noticeDesktop a)) = 1 := by
  unfold articleLog
  rw [hD]
  simp only [Bool.false_eq_true, if_false]
  split_ifs <;>
    simp [List.count_append, List.count_cons, List.count_nil,
      (noticeDesktop_ne_noticeMobile a).symm,
      (noticeDesktop_ne_noticeAllAccess a).symm]

/-- When either mobile fetch has no data, the article's log contains the
mobile notice exactly once. -/
theorem articleLog_count_mobile (o : TryOracle) (t : RequestTemplate) (a : String)
    (hM : (hasData (viewsOf o t a "mobile-web") &&
      hasData (viewsOf o t a "mobile-app")) = false) :
    (articleLog o t a).count (LoopEvent.notice (noticeMobile a)) = 1 := by
  unfold articleLog
  rw [hM]
  simp only [Bool.false_eq_true, if_false]
  split_ifs <;>
    simp [List.count_append, List.count_cons, List.count_nil,
      noticeDesktop_ne_noticeMobile a,
      (noticeMobile_ne_noticeAllAccess a).symm]

/-- When the all-access fetch has no data, the article's log contains the
all-access notice exactly once. -/
theorem articleLog_count_allaccess (o : TryOracle) (t : RequestTemplate) (a : String)
    (hC : hasData (viewsOf o t a "all-access") = false) :
    (articleLog o t a).count (LoopEvent.notice (noticeAllAccess a)) = 1 := by
  unfold articleLog
  rw [hC]
  simp only [Bool.false_eq_true, if_false]
  split_ifs <;>
    simp [List.count_append, List.count_cons, List.count_nil,
      noticeDesktop_ne_noticeAllAccess a,
      noticeMobile_ne_noticeAllAccess a]

theorem callsOf_append (l1 l2 : List LoopEvent) :
    callsOf (l1 ++ l2) = callsOf l1 ++ callsOf l2 := by
  unfold callsOf
  rw [List.filter_append]

/-- Whatever the responses, the per-article trace contains exactly the
four calls, in order. -/
theorem callsOf_articleLog (o : TryOracle) (t : RequestTemplate) (a : String) :
    callsOf (articleLog o t a) = fourCalls a := by
  unfold articleLog
  split_ifs <;> rfl

/-! ### Structure of the mobile merge -/

/-- Every merged mobile record comes from one position at which both
lists carry the same timestamp, and its views are the sum of the views
at that position. -/
theorem mergeMobile_mem {a : String} {web app : List Item} {r : PageviewRecord}
    (hr : r ∈ mergeMobile a web app) :
    r.article_title = a ∧
    ∃ i, ∃ hiw : i < web.length, ∃ him : i < app.length,
      (web.get ⟨i, hiw⟩).timestamp = r.timestamp ∧
      (app.get ⟨i, him⟩).timestamp = r.timestamp ∧
      r.views = (web.get ⟨i, hiw⟩).views + (app.get ⟨i, him⟩).views := by
  unfold mergeMobile at hr
  rcases List.mem_filterMap.mp hr with ⟨⟨w, m⟩, hp, hf⟩
  rcases List.mem_iff_get.mp hp with ⟨i, hget⟩
  have hz := @List.get_zip Item Item web app i
  rw [hget] at hz
  have hw := congrArg Prod.fst hz
  have hm := congrArg Prod.snd hz
  simp only [] at hw hm hf
  by_cases hts : w.timestamp = m.timestamp
  · rw [if_pos hts] at hf
    have hlit := Option.some.inj hf
    refine ⟨?_, i.val, List.lt_length_left_of_zip i.isLt,
      List.lt_length_right_of_zip i.isLt, ?_, ?_, ?_⟩
    · rw [← hlit]
    · rw [← hlit, ← hw]
    · rw [← hlit, ← hm, ← hts]
    · rw [← hlit, ← hw, ← hm]
  · rw [if_neg hts] at hf
    exact absurd hf (by simp)

/-- The merge appends at most `min` of the two lengths. -/
theorem mergeMobile_length_le (a : String) (web app : List Item) :
    (mergeMobile a web app).length ≤ min web.length app.length := by
  unfold mergeMobile
  calc ((web.zip app).filterMap _).length
      ≤ (web.zip app).length := List.length_filterMap_le _ _
    _ = min web.length app.length := List.length_zip web app

/-- Every merged record's timestamp occurs in both source lists. -/
theorem mergeMobile_timestamp_mem {a : String} {web app : List Item}
    {r : PageviewRecord} (hr : r ∈ mergeMobile a web app) :
    (∃ x ∈ web, x.timestamp = r.timestamp) ∧
    (∃ x ∈ app, x.timestamp = r.timestamp) := by
  rcases (mergeMobile_mem hr).2 with ⟨i, hiw, him, h1, h2, -⟩
  exact ⟨⟨web.get ⟨i, hiw⟩, List.get_mem web i hiw, h1⟩,
         ⟨app.get ⟨i, him⟩, List.get_mem app i him, h2⟩⟩

/-- The try block characterised by its exception message: if some step
raised, the result is `None` and the message is printed; otherwise the
parsed body is returned. -/
theorem try_characterization (o : TryOracle) (url : String)
    (hdrs : List (String × String)) :
    (∀ m, tryExcMsg o url = some m →
       tryResult o url = none ∧ Event.printLine m ∈ (runTry o url hdrs).2) ∧
    (tryExcMsg o url = none →
       ∃ body, o.jsonResult url = Except.ok body ∧
         tryResult o url = some body) := by
  cases hsleep : o.sleepExc with
  | some m2 =>
    have hmsg : tryExcMsg o url = some m2 := by unfold tryExcMsg; rw [hsleep]
    have hres : tryResult o url = none := by unfold tryResult; rw [hsleep]; rfl
    constructor
    · intro m hm
      rw [hmsg] at hm
      cases hm
      refine ⟨hres, ?_⟩
      rw [runTry_sleepExc o url hdrs m2 hsleep]
      simp
    · intro hm
      rw [hmsg] at hm
      cases hm
  | none =>
    cases hget : o.getExc url with
    | some m2 =>
      have hmsg : tryExcMsg o url = some m2 := by
        unfold tryExcMsg; rw [hsleep, hget]
      have hres : tryResult o url = none := by
        unfold tryResult; rw [hsleep, hget]; rfl
      constructor
      · intro m hm
        rw [hmsg] at hm
        cases hm
        refine ⟨hres, ?_⟩
        rw [runTry_getExc o url hdrs m2 hsleep hget]
        simp
      · intro hm
        rw [hmsg] at hm
        cases hm
    | none =>
      cases hjson : o.jsonResult url with
      | error m2 =>
        have hmsg : tryExcMsg o url = some m2 := by
          unfold tryExcMsg; rw [hsleep, hget, hjson]
        have hres : tryResult o url = none := by
          unfold tryResult; rw [hsleep, hget, hjson]; rfl
        constructor
        · intro m hm
          rw [hmsg] at hm
          cases hm
          refine ⟨hres, ?_⟩
          rw [runTry_jsonErr o url hdrs m2 hsleep hget hjson]
          simp
        · intro hm
          rw [hmsg] at hm
          cases hm
      | ok body =>
        have hmsg : tryExcMsg o url = none := by
          unfold tryExcMsg; rw [hsleep, hget, hjson]
        have hres : tryResult o url = some body := by
          unfold tryResult; rw [hsleep, hget, hjson]; rfl
        constructor
        · intro m hm
          rw [hmsg] at hm
          cases hm
        · intro _
          exact ⟨body, rfl, hres⟩

/-- `effectiveTitle` falls back to the template's article field. -/
theorem effectiveTitle_none (t : RequestTemplate) :
    effectiveTitle none t = t.article := rfl

theorem mutatedTemplate_article (t : RequestTemplate) (a access : String) :
    (mutatedTemplate t a access).article = encodeTitle a := rfl

/-! ### Claim theorems -/

/-- C1, counterexample: for the title "a/b" the encoded path segment the
function writes into the template (and hence into the URL) is "a/b"
itself: the slash is NOT percent-encoded (no percent sign appears),
contrary to the claim. -/
theorem slash_unencoded_counterexample :
    (request_pageviews_per_article oracleOk (some "a/b") "desktop"
        API_REQUEST_PAGEVIEWS_ENDPOINT REQUEST_HEADERS
        ARTICLE_PAGEVIEWS_PARAMS_TEMPLATE).template.article = "a/b" ∧
    '/' ∈ ("a/b").data ∧ '%' ∉ ("a/b").data := by
  refine ⟨?_, by decide, by decide⟩
  decide

/-- C1, amended: each space of the title is replaced by an underscore
(no space survives into the encoded segment, and the underscore count
grows by the space count), but a `/` in the title is NOT percent-encoded:
it is passed through unchanged, because `urllib.parse.quote` keeps its
default `safe='/'`. -/
theorem title_encoding_amended (o : TryOracle) (a access epu : String)
    (hs : List (String × String)) (t : RequestTemplate) (h : a ≠ "") :
    ((request_pageviews_per_article o (some a) access epu hs t).template.article
        = encodeTitle a) ∧
    ' ' ∉ (encodeTitle a).data ∧
    (encodeTitle a).data.count '/' = a.data.count '/' ∧
    (encodeTitle a).data.count '_' = a.data.count '_' + a.data.count ' ' := by
  refine ⟨?_, ?_, ?_, ?_⟩
  · rw [fetch_spec_some o a h access epu hs t]
    rfl
  · show ' ' ∉ quoteChars ((a.data.map fun c => if c = ' ' then '_' else c).flatMap utf8Bytes)
    exact quoteChars_no_space (strBytes_mem_lt _)
  · show (quoteChars ((a.data.map fun c => if c = ' ' then '_' else c).flatMap
        utf8Bytes)).count '/' = a.data.count '/'
    rw [quoteChars_count47 (strBytes_mem_lt _), strBytes_count47,
      pyReplaceSpace_count47]
  · show (quoteChars ((a.data.map fun c => if c = ' ' then '_' else c).flatMap
        utf8Bytes)).count '_' = a.data.count '_' + a.data.count ' '
    rw [quoteChars_count95 (strBytes_mem_lt _), strBytes_count95,
      pyReplaceSpace_count95]

/-- Witness for the amended C1 at the concrete title "a b/c". -/
theorem title_encoding_amended_witness :
    ((request_pageviews_per_article oracleOk (some "a b/c") "desktop"
        API_REQUEST_PAGEVIEWS_ENDPOINT REQUEST_HEADERS
        ARTICLE_PAGEVIEWS_PARAMS_TEMPLATE).template.article
        = encodeTitle "a b/c") ∧
    ' ' ∉ (encodeTitle "a b/c").data ∧
    (encodeTitle "a b/c").data.count '/' = ("a b/c").data.count '/' ∧
    (encodeTitle "a b/c").data.count '_'
      = ("a b/c").data.count '_' + ("a b/c").data.count ' ' :=
  title_encoding_amended oracleOk "a b/c" "desktop"
    API_REQUEST_PAGEVIEWS_ENDPOINT REQUEST_HEADERS
    ARTICLE_PAGEVIEWS_PARAMS_TEMPLATE (by decide)

/-- C3: with a non-empty title, the function never propagates an
exception from the try block: it returns the try block's value; whenever
a step of the try block raises with message `m`, the function returns
`None` (`Except.ok none`) and prints `m`; when nothing raises, it
returns the parsed JSON body. -/
theorem fetch_errors_swallowed (o : TryOracle) (a access epu : String)
    (hs : List (String × String)) (t : RequestTemplate) (h : a ≠ "") :
    ((request_pageviews_per_article o (some a) access epu hs t).outcome
        = Except.ok (tryResult o (epu ++ formatParams (mutatedTemplate t a access)))) ∧
    (∀ m, tryExcMsg o (epu ++ formatParams (mutatedTemplate t a access)) = some m →
      (request_pageviews_per_article o (some a) access epu hs t).outcome
          = Except.ok none ∧
      Event.printLine m ∈
        (request_pageviews_per_article o (some a) access epu hs t).events) ∧
    (tryExcMsg o (epu ++ formatParams (mutatedTemplate t a access)) = none →
      ∃ body, o.jsonResult (epu ++ formatParams (mutatedTemplate t a access))
          = Except.ok body ∧
        (request_pageviews_per_article o (some a) access epu hs t).outcome
          = Except.ok (some body)) := by
  rw [fetch_spec_some o a h access epu hs t]
  have hchar := try_characterization o
    (epu ++ formatParams (mutatedTemplate t a access)) hs
  refine ⟨rfl, ?_, ?_⟩
  · intro m hm
    rcases hchar.1 m hm with ⟨hres, hmem⟩
    exact ⟨by rw [hres], hmem⟩
  · intro hm
    rcases hchar.2 hm with ⟨body, hjson, hres⟩
    exact ⟨body, hjson, by rw [hres]⟩

/-- Witness for C3 in an environment whose JSON parsing fails. -/
theorem fetch_errors_swallowed_witness :
    (request_pageviews_per_article oracleFail (some "Bison") "desktop"
        API_REQUEST_PAGEVIEWS_ENDPOINT REQUEST_HEADERS
        ARTICLE_PAGEVIEWS_PARAMS_TEMPLATE).outcome = Except.ok none ∧
    Event.printLine "Expecting value" ∈
      (request_pageviews_per_article oracleFail (some "Bison") "desktop"
        API_REQUEST_PAGEVIEWS_ENDPOINT REQUEST_HEADERS
        ARTICLE_PAGEVIEWS_PARAMS_TEMPLATE).events :=
  (fetch_errors_swallowed oracleFail "Bison" "desktop"
    API_REQUEST_PAGEVIEWS_ENDPOINT REQUEST_HEADERS
    ARTICLE_PAGEVIEWS_PARAMS_TEMPLATE (by decide)).2.1 "Expecting value" rfl

/-- C7: the throttle wait is the fixed positive duration
1/100 s − 2 ms = 8 ms; every call that reaches the request phase sleeps
for it first, and any GET it issues carries the fixed identifying
User-Agent header. -/
theorem throttle_and_headers (o : TryOracle) (at_ : Option String)
    (access : String) (t : RequestTemplate) (h : effectiveTitle at_ t ≠ "") :
    API_THROTTLE_WAIT = 1/100 - API_LATENCY_ASSUMED ∧
    API_LATENCY_ASSUMED = 2/1000 ∧
    API_THROTTLE_WAIT = 8/1000 ∧
    0 < API_THROTTLE_WAIT ∧
    REQUEST_HEADERS = [("User-Agent",
      "<trips@uw.edu>, University of Washington, MSDS DATA 512 - AUTUMN 2024")] ∧
    (∃ rest, (request_pageviews_per_article o at_ access
        API_REQUEST_PAGEVIEWS_ENDPOINT REQUEST_HEADERS t).events
        = Event.sleep API_THROTTLE_WAIT :: rest) ∧
    (∀ u hdrs2, Event.get u hdrs2 ∈ (request_pageviews_per_article o at_ access
        API_REQUEST_PAGEVIEWS_ENDPOINT REQUEST_HEADERS t).events →
      hdrs2 = REQUEST_HEADERS) := by
  rw [fetch_spec o at_ access API_REQUEST_PAGEVIEWS_ENDPOINT REQUEST_HEADERS t h]
  have hsh := runTry_events_shape o
    (API_REQUEST_PAGEVIEWS_ENDPOINT ++
      formatParams (mutatedTemplate t (effectiveTitle at_ t) access))
    REQUEST_HEADERS
  refine ⟨rfl, rfl, API_THROTTLE_WAIT_eq, API_THROTTLE_WAIT_pos, rfl, hsh.1, ?_⟩
  intro u hdrs2 hmem
  exact (hsh.2 u hdrs2 hmem).2

/-- Witness for C7 at a concrete call. -/
theorem throttle_and_headers_witness :
    API_THROTTLE_WAIT = 8/1000 ∧
    (∃ rest, (request_pageviews_per_article oracleOk (some "Bison") "desktop"
        API_REQUEST_PAGEVIEWS_ENDPOINT REQUEST_HEADERS
        ARTICLE_PAGEVIEWS_PARAMS_TEMPLATE).events
        = Event.sleep API_THROTTLE_WAIT :: rest) :=
  have hall := throttle_and_headers oracleOk (some "Bison") "desktop"
    ARTICLE_PAGEVIEWS_PARAMS_TEMPLATE (by decide)
  ⟨hall.2.2.1, hall.2.2.2.2.2.1⟩

/-- C8: when the article-title argument is falsy and the template's
article field is empty, the function raises (the error propagates) before
any side effect: no sleep, no GET. -/
theorem empty_title_raises (o : TryOracle) (at_ : Option String)
    (access epu : String) (hs : List (String × String)) (t : RequestTemplate)
    (hfalsy : pyTruthyStr at_ = false) (hempty : t.article = "") :
    ((request_pageviews_per_article o at_ access epu hs t).outcome
        = Except.error mustSupplyMsg) ∧
    (request_pageviews_per_article o at_ access epu hs t).events = [] ∧
    ∀ u hdrs2, Event.get u hdrs2 ∉
      (request_pageviews_per_article o at_ access epu hs t).events := by
  rw [fetch_raises o at_ access epu hs t hfalsy hempty]
  refine ⟨rfl, rfl, ?_⟩
  intro u hdrs2
  simp

/-- Witness for C8: calling with no title on the pristine template. -/
theorem empty_title_raises_witness :
    ((request_pageviews_per_article oracleOk none "desktop"
        API_REQUEST_PAGEVIEWS_ENDPOINT REQUEST_HEADERS
        ARTICLE_PAGEVIEWS_PARAMS_TEMPLATE).outcome
        = Except.error mustSupplyMsg) ∧
    (request_pageviews_per_article oracleOk none "desktop"
        API_REQUEST_PAGEVIEWS_ENDPOINT REQUEST_HEADERS
        ARTICLE_PAGEVIEWS_PARAMS_TEMPLATE).events = [] ∧
    ∀ u hdrs2, Event.get u hdrs2 ∉
      (request_pageviews_per_article oracleOk none "desktop"
        API_REQUEST_PAGEVIEWS_ENDPOINT REQUEST_HEADERS
        ARTICLE_PAGEVIEWS_PARAMS_TEMPLATE).events :=
  empty_title_raises oracleOk none "desktop" API_REQUEST_PAGEVIEWS_ENDPOINT
    REQUEST_HEADERS ARTICLE_PAGEVIEWS_PARAMS_TEMPLATE rfl rfl

/-- C9: a call with a non-empty title mutates the shared template (sets
the access field and overwrites the article field with the encoded
title); a later call that omits the title does not raise: it reuses the
stored, already-encoded article value and encodes it a second time. -/
theorem template_mutation_persists (o o2 : TryOracle)
    (a access access2 epu : String) (hs : List (String × String))
    (t : RequestTemplate) (h : a ≠ "") :
    ((request_pageviews_per_article o (some a) access epu hs t).template.access
        = access) ∧
    ((request_pageviews_per_article o (some a) access epu hs t).template.article
        = encodeTitle a) ∧
    ((request_pageviews_per_article o2 none access2 epu hs
        (request_pageviews_per_article o (some a) access epu hs t).template).outcome
      = Except.ok (tryResult o2 (epu ++ formatParams
          (mutatedTemplate t (encodeTitle a) access2)))) ∧
    ((request_pageviews_per_article o2 none access2 epu hs
        (request_pageviews_per_article o (some a) access epu hs t).template).template.article
      = encodeTitle (encodeTitle a)) := by
  rw [fetch_spec_some o a h access epu hs t]
  have hne2 : effectiveTitle none (mutatedTemplate t a access) ≠ "" := by
    rw [effectiveTitle_none, mutatedTemplate_article]
    exact encodeTitle_ne h
  rw [fetch_spec o2 none access2 epu hs (mutatedTemplate t a access) hne2]
  refine ⟨rfl, rfl, rfl, rfl⟩

/-- Witness for C9 at the concrete title "Bison". -/
theorem template_mutation_persists_witness :
    ((request_pageviews_per_article oracleOk (some "Bison") "desktop"
        API_REQUEST_PAGEVIEWS_ENDPOINT REQUEST_HEADERS
        ARTICLE_PAGEVIEWS_PARAMS_TEMPLATE).template.access = "desktop") ∧
    ((request_pageviews_per_article oracleOk (some "Bison") "desktop"
        API_REQUEST_PAGEVIEWS_ENDPOINT REQUEST_HEADERS
        ARTICLE_PAGEVIEWS_PARAMS_TEMPLATE).template.article
        = encodeTitle "Bison") ∧
    ((request_pageviews_per_article oracleOk none "mobile-web"
        API_REQUEST_PAGEVIEWS_ENDPOINT REQUEST_HEADERS
        (request_pageviews_per_article oracleOk (some "Bison") "desktop"
          API_REQUEST_PAGEVIEWS_ENDPOINT REQUEST_HEADERS
          ARTICLE_PAGEVIEWS_PARAMS_TEMPLATE).template).outcome
      = Except.ok (tryResult oracleOk (API_REQUEST_PAGEVIEWS_ENDPOINT ++
          formatParams (mutatedTemplate ARTICLE_PAGEVIEWS_PARAMS_TEMPLATE
            (encodeTitle "Bison") "mobile-web")))) ∧
    ((request_pageviews_per_article oracleOk none "mobile-web"
        API_REQUEST_PAGEVIEWS_ENDPOINT REQUEST_HEADERS
        (request_pageviews_per_article oracleOk (some "Bison") "desktop"
          API_REQUEST_PAGEVIEWS_ENDPOINT REQUEST_HEADERS
          ARTICLE_PAGEVIEWS_PARAMS_TEMPLATE).template).template.article
      = encodeTitle (encodeTitle "Bison")) :=
  template_mutation_persists oracleOk oracleOk "Bison" "desktop" "mobile-web"
    API_REQUEST_PAGEVIEWS_ENDPOINT REQUEST_HEADERS
    ARTICLE_PAGEVIEWS_PARAMS_TEMPLATE (by decide)

/-- C5: when the desktop response is a body with an items list, the
article's processing appends exactly those items to `desktop_dict`, each
with the original (un-encoded) input title and the item's timestamp and
views. -/
theorem desktop_passthrough (o : TryOracle) (a : String) (s : AggState)
    (bd : PVBody) (h : a ≠ "")
    (hd : viewsOf o s.template a "desktop" = some bd)
    (hi : bd.hasItemsKey = true) :
    ((processArticle o a s).1.desktop_dict
      = s.desktop_dict ++ passThrough a bd.itemsVal) ∧
    ((processArticle o a s).1.desktop_dict.length
      = s.desktop_dict.length + bd.itemsVal.length) ∧
    (∀ r ∈ passThrough a bd.itemsVal, r.article_title = a ∧
      ∃ m ∈ bd.itemsVal, r.timestamp = m.timestamp ∧ r.views = m.views) := by
  have h1 : (processArticle o a s).1.desktop_dict
      = s.desktop_dict ++ passThrough a bd.itemsVal := by
    rw [processArticle_eq o a s h]
    show s.desktop_dict ++ desktopAdd o s.template a = _
    simp [desktopAdd, hd, hasData_some hi, itemsOf]
  refine ⟨h1, ?_, ?_⟩
  · rw [h1, List.length_append]
    simp [passThrough]
  · intro r hr
    rcases List.mem_map.mp hr with ⟨m, hm, hrm⟩
    subst hrm
    exact ⟨rfl, m, hm, rfl, rfl⟩

/-- Witness for C5 at a two-item desktop response. -/
theorem desktop_passthrough_witness :
    ((processArticle oracleOk "Bison" initAggState).1.desktop_dict
      = initAggState.desktop_dict ++ passThrough "Bison" bodyFix.itemsVal) ∧
    ((processArticle oracleOk "Bison" initAggState).1.desktop_dict.length
      = initAggState.desktop_dict.length + bodyFix.itemsVal.length) ∧
    (∀ r ∈ passThrough "Bison" bodyFix.itemsVal, r.article_title = "Bison" ∧
      ∃ m ∈ bodyFix.itemsVal, r.timestamp = m.timestamp ∧ r.views = m.views) :=
  desktop_passthrough oracleOk "Bison" initAggState bodyFix (by decide) rfl rfl

/-- C4: a failed or data-less response never aborts the loop: the
iteration finishes without an exception, the loop continues with the
remaining articles, all four access types are still called, and each
data-less access type appends nothing to its output and prints exactly
one notice. -/
theorem null_response_skips (o : TryOracle) (a : String) (s : AggState)
    (rest : List String) (h : a ≠ "") :
    ((processArticle o a s).2 = none) ∧
    (runLoop o (a :: rest) s = runLoop o rest (processArticle o a s).1) ∧
    (callsOf (processArticle o a s).1.log = callsOf s.log ++ fourCalls a) ∧
    (hasData (viewsOf o s.template a "desktop") = false →
      (processArticle o a s).1.desktop_dict = s.desktop_dict ∧
      (processArticle o a s).1.log.count (LoopEvent.notice (noticeDesktop a))
        = s.log.count (LoopEvent.notice (noticeDesktop a)) + 1) ∧
    ((hasData (viewsOf o s.template a "mobile-web") &&
        hasData (viewsOf o s.template a "mobile-app")) = false →
      (processArticle o a s).1.mobile_dict = s.mobile_dict ∧
      (processArticle o a s).1.log.count (LoopEvent.notice (noticeMobile a))
        = s.log.count (LoopEvent.notice (noticeMobile a)) + 1) ∧
    (hasData (viewsOf o s.template a "all-access") = false →
      (processArticle o a s).1.cumulative_dict = s.cumulative_dict ∧
      (processArticle o a s).1.log.count (LoopEvent.notice (noticeAllAccess a))
        = s.log.count (LoopEvent.notice (noticeAllAccess a)) + 1) := by
  refine ⟨?_, ?_, ?_, ?_, ?_, ?_⟩
  · rw [processArticle_eq o a s h]
  · rw [runLoop_cons o a rest s h]
  · rw [processArticle_eq o a s h]
    show callsOf (s.log ++ articleLog o s.template a) = _
    rw [callsOf_append, callsOf_articleLog]
  · intro hD
    rw [processArticle_eq o a s h]
    constructor
    · show s.desktop_dict ++ desktopAdd o s.template a = s.desktop_dict
      simp [desktopAdd, hD]
    · show (s.log ++ articleLog o s.template a).count
          (LoopEvent.notice (noticeDesktop a)) = _
      rw [List.count_append, articleLog_count_desktop o s.template a hD]
  · intro hM
    rw [processArticle_eq o a s h]
    constructor
    · show s.mobile_dict ++ mobileAdd o s.template a = s.mobile_dict
      simp [mobileAdd, hM]
    · show (s.log ++ articleLog o s.template a).count
          (LoopEvent.notice (noticeMobile a)) = _
      rw [List.count_append, articleLog_count_mobile o s.template a hM]
  · intro hC
    rw [processArticle_eq o a s h]
    constructor
    · show s.cumulative_dict ++ cumulativeAdd o s.template a = s.cumulative_dict
      simp [cumulativeAdd, hC]
    · show (s.log ++ articleLog o s.template a).count
          (LoopEvent.notice (noticeAllAccess a)) = _
      rw [List.count_append, articleLog_count_allaccess o s.template a hC]

/-- Witness for C4 in an environment in which every fetch fails. -/
theorem null_response_skips_witness :
    ((processArticle oracleFail "Bison" initAggState).2 = none) ∧
    ((processArticle oracleFail "Bison" initAggState).1.desktop_dict
        = initAggState.desktop_dict) ∧
    ((processArticle oracleFail "Bison" initAggState).1.log.count
        (LoopEvent.notice (noticeDesktop "Bison"))
      = initAggState.log.count (LoopEvent.notice (noticeDesktop "Bison")) + 1) ∧
    (callsOf (processArticle oracleFail "Bison" initAggState).1.log
      = callsOf initAggState.log ++ fourCalls "Bison") :=
  have hall := null_response_skips oracleFail "Bison" initAggState [] (by decide)
  ⟨hall.1, (hall.2.2.2.1 rfl).1, (hall.2.2.2.1 rfl).2, hall.2.2.1⟩

/-- C2: when both mobile responses carry items, the records the loop
appends to `mobile_dict` are exactly the merged ones; each merged record
sums the mobile-web and mobile-app views of one position at which both
timestamps equal the record's timestamp; and no record is produced for a
timestamp present in only one of the two responses. -/
theorem mobile_merge_correct (o : TryOracle) (a : String) (s : AggState)
    (bw bm : PVBody) (h : a ≠ "")
    (hw : viewsOf o s.template a "mobile-web" = some bw)
    (hm : viewsOf o s.template a "mobile-app" = some bm)
    (hwi : bw.hasItemsKey = true) (hmi : bm.hasItemsKey = true) :
    ((processArticle o a s).1.mobile_dict
      = s.mobile_dict ++ mergeMobile a bw.itemsVal bm.itemsVal) ∧
    (∀ r ∈ mergeMobile a bw.itemsVal bm.itemsVal,
      ∃ i, ∃ hiw : i < bw.itemsVal.length, ∃ him : i < bm.itemsVal.length,
        (bw.itemsVal.get ⟨i, hiw⟩).timestamp = r.timestamp ∧
        (bm.itemsVal.get ⟨i, him⟩).timestamp = r.timestamp ∧
        r.views = (bw.itemsVal.get ⟨i, hiw⟩).views
          + (bm.itemsVal.get ⟨i, him⟩).views) ∧
    (∀ ts, (((∃ x ∈ bw.itemsVal, x.timestamp = ts) ∧
              ¬ ∃ x ∈ bm.itemsVal, x.timestamp = ts) ∨
            ((¬ ∃ x ∈ bw.itemsVal, x.timestamp = ts) ∧
              ∃ x ∈ bm.itemsVal, x.timestamp = ts)) →
      ∀ r ∈ mergeMobile a bw.itemsVal bm.itemsVal, r.timestamp ≠ ts) := by
  refine ⟨?_, ?_, ?_⟩
  · rw [processArticle_eq o a s h]
    show s.mobile_dict ++ mobileAdd o s.template a = _
    simp [mobileAdd, hw, hm, hasData_some hwi, hasData_some hmi, itemsOf]
  · intro r hr
    exact (mergeMobile_mem hr).2
  · intro ts hone r hr hts
    rcases mergeMobile_timestamp_mem hr with ⟨hinw, hinm⟩
    rw [hts] at hinw hinm
    rcases hone with ⟨h1, h2⟩ | ⟨h1, h2⟩
    · exact h2 hinm
    · exact h1 hinw

/-- Witness for C2 with identical two-item mobile responses. -/
theorem mobile_merge_correct_witness :
    ((processArticle oracleOk "Bison" initAggState).1.mobile_dict
      = initAggState.mobile_dict
          ++ mergeMobile "Bison" bodyFix.itemsVal bodyFix.itemsVal) ∧
    (∀ r ∈ mergeMobile "Bison" bodyFix.itemsVal bodyFix.itemsVal,
      ∃ i, ∃ hiw : i < bodyFix.itemsVal.length,
        ∃ him : i < bodyFix.itemsVal.length,
        (bodyFix.itemsVal.get ⟨i, hiw⟩).timestamp = r.timestamp ∧
        (bodyFix.itemsVal.get ⟨i, him⟩).timestamp = r.timestamp ∧
        r.views = (bodyFix.itemsVal.get ⟨i, hiw⟩).views
          + (bodyFix.itemsVal.get ⟨i, him⟩).views) ∧
    (∀ ts, (((∃ x ∈ bodyFix.itemsVal, x.timestamp = ts) ∧
              ¬ ∃ x ∈ bodyFix.itemsVal, x.timestamp = ts) ∨
            ((¬ ∃ x ∈ bodyFix.itemsVal, x.timestamp = ts) ∧
              ∃ x ∈ bodyFix.itemsVal, x.timestamp = ts)) →
      ∀ r ∈ mergeMobile "Bison" bodyFix.itemsVal bodyFix.itemsVal,
        r.timestamp ≠ ts) :=
  mobile_merge_correct oracleOk "Bison" initAggState bodyFix bodyFix
    (by decide) rfl rfl rfl rfl

/-- C10: the mobile merge is positional: it appends at most
`min` of the two item-list lengths records, every appended record's
timestamp sits at one common position of both lists, and a month missing
in the middle of one list makes every later month drop even though both
lists contain it (shown on a concrete three-against-two instance). -/
theorem mobile_merge_positional (o : TryOracle) (a : String) (s : AggState)
    (bw bm : PVBody) (h : a ≠ "")
    (hw : viewsOf o s.template a "mobile-web" = some bw)
    (hm : viewsOf o s.template a "mobile-app" = some bm)
    (hwi : bw.hasItemsKey = true) (hmi : bm.hasItemsKey = true) :
    ((processArticle o a s).1.mobile_dict
      = s.mobile_dict ++ mergeMobile a bw.itemsVal bm.itemsVal) ∧
    ((mergeMobile a bw.itemsVal bm.itemsVal).length
      ≤ min bw.itemsVal.length bm.itemsVal.length) ∧
    (∀ r ∈ mergeMobile a bw.itemsVal bm.itemsVal,
      ∃ i, ∃ hiw : i < bw.itemsVal.length, ∃ him : i < bm.itemsVal.length,
        (bw.itemsVal.get ⟨i, hiw⟩).timestamp = r.timestamp ∧
        (bm.itemsVal.get ⟨i, him⟩).timestamp = r.timestamp) ∧
    (mergeMobile a
        [{ timestamp := "2015070100", views := 1 },
         { timestamp := "2015080100", views := 2 },
         { timestamp := "2015090100", views := 3 }]
        [{ timestamp := "2015070100", views := 10 },
         { timestamp := "2015090100", views := 30 }]
      = [{ article_title := a, timestamp := "2015070100", views := 11 }]) := by
  refine ⟨?_, mergeMobile_length_le a bw.itemsVal bm.itemsVal, ?_, ?_⟩
  · rw [processArticle_eq o a s h]
    show s.mobile_dict ++ mobileAdd o s.template a = _
    simp [mobileAdd, hw, hm, hasData_some hwi, hasData_some hmi, itemsOf]
  · intro r hr
    rcases (mergeMobile_mem hr).2 with ⟨i, hiw, him, h1, h2, -⟩
    exact ⟨i, hiw, him, h1, h2⟩
  · rfl

/-- Witness for C10 with identical two-item mobile responses. -/
theorem mobile_merge_positional_witness :
    ((processArticle oracleOk "Horseshoe bat" initAggState).1.mobile_dict
      = initAggState.mobile_dict
          ++ mergeMobile "Horseshoe bat" bodyFix.itemsVal bodyFix.itemsVal) ∧
    ((mergeMobile "Horseshoe bat" bodyFix.itemsVal bodyFix.itemsVal).length
      ≤ min bodyFix.itemsVal.length bodyFix.itemsVal.length) ∧
    (∀ r ∈ mergeMobile "Horseshoe bat" bodyFix.itemsVal bodyFix.itemsVal,
      ∃ i, ∃ hiw : i < bodyFix.itemsVal.length,
        ∃ him : i < bodyFix.itemsVal.length,
        (bodyFix.itemsVal.get ⟨i, hiw⟩).timestamp = r.timestamp ∧
        (bodyFix.itemsVal.get ⟨i, him⟩).timestamp = r.timestamp) ∧
    (mergeMobile "Horseshoe bat"
        [{ timestamp := "2015070100", views := 1 },
         { timestamp := "2015080100", views := 2 },
         { timestamp := "2015090100", views := 3 }]
        [{ timestamp := "2015070100", views := 10 },
         { timestamp := "2015090100", views := 30 }]
      = [{ article_title := "Horseshoe bat", timestamp := "2015070100",
           views := 11 }]) :=
  mobile_merge_positional oracleOk "Horseshoe bat" initAggState bodyFix bodyFix
    (by decide) rfl rfl rfl rfl

/-- C6, counterexample: on the input list [""] with the pristine
template, the fetcher is invoked only once (for desktop), the call
raises, and the loop aborts: it does not invoke the fetcher four times
for that article. -/
theorem loop_empty_title_aborts :
    ((runLoop oracleOk [""] initAggState).2 = some mustSupplyMsg) ∧
    callsOf (runLoop oracleOk [""] initAggState).1.log
      = [LoopEvent.call (some "") "desktop"] := by
  constructor
  · rfl
  · rfl

/-- C6, amended: for every input list of NON-EMPTY article titles, the
loop finishes without an exception and invokes the fetcher exactly four
times per article, in the order desktop, mobile-web, mobile-app,
all-access, before moving on to the next article. -/
theorem loop_four_calls (o : TryOracle) (articles : List String) :
    ∀ (s : AggState), (∀ a ∈ articles, a ≠ "") →
      ((runLoop o articles s).2 = none) ∧
      callsOf (runLoop o articles s).1.log
        = callsOf s.log ++ articles.flatMap fourCalls := by
  induction articles with
  | nil =>
    intro s h
    exact ⟨rfl, by simp [runLoop]⟩
  | cons a rest ih =>
    intro s h
    have ha : a ≠ "" := h a (List.mem_cons_self a rest)
    have hrest : ∀ x ∈ rest, x ≠ "" := fun x hx => h x (List.mem_cons_of_mem a hx)
    rw [runLoop_cons o a rest s ha]
    rcases ih (processArticle o a s).1 hrest with ⟨ih1, ih2⟩
    refine ⟨ih1, ?_⟩
    rw [ih2, processArticle_eq o a s ha]
    show callsOf (s.log ++ articleLog o s.template a)
        ++ rest.flatMap fourCalls = _
    rw [callsOf_append, callsOf_articleLog]
    simp [List.flatMap_cons, List.append_assoc]

/-- Witness for the amended C6 on a concrete two-article list. -/
theorem loop_four_calls_witness :
    ((runLoop oracleOk ["Bison", "Red squirrel"] initAggState).2 = none) ∧
    callsOf (runLoop oracleOk ["Bison", "Red squirrel"] initAggState).1.log
      = callsOf initAggState.log
          ++ (["Bison", "Red squirrel"].flatMap fourCalls) :=
  loop_four_calls oracleOk ["Bison", "Red squirrel"] initAggState (by decide)
